import Mathlib

/-!
Verification of the incremental NSE symbol cache
(`VolumeDeliveryData/fetch_vol_delivery_data.py` and
`VolumeDeliveryData/bulk_downloader.py`) against its specification.

Dates are embedded as day serials (`Int`, days since 1970-01-01) except in
the `update_symbol_data` start-date computation, where the Python code
inspects calendar components (`.year`, `datetime(year, 1, 1)`) and we use a
calendar-date structure.
-/

namespace StockCache

/-- One row of a symbol's CSV table. The merge logic in
`NSEDataDownloader.update_symbol_data` keys only on the `Date` column
(`drop_duplicates(subset=["Date"])`, `sort_values(by="Date")`); the other
numeric columns (open/high/low/close/prev-close/average price, traded
quantity, turnover, trade count, deliverable quantity, deliverable
percentage) travel along untouched, so we carry them as an opaque list. -/
structure DailyRecord where
  date : Int
  fields : List Int
deriving DecidableEq, Repr

/-- The comparison `sort_values(by="Date")` sorts by: date of `a` at most
date of `b`. -/
def dateLE (a b : DailyRecord) : Prop := a.date ≤ b.date

instance : DecidableRel dateLE := fun a b => Int.decLe a.date b.date

instance : IsTotal DailyRecord dateLE := ⟨fun a b => Int.le_total a.date b.date⟩

instance : IsTrans DailyRecord dateLE := ⟨fun _ _ _ h h' => Int.le_trans h h'⟩

/-- `DataFrame.drop_duplicates(subset=["Date"])` with pandas' default
`keep="first"`: keep the first row of each date, drop every later row with
a date already seen. -/
def dropDupDate : List DailyRecord → List DailyRecord
  | [] => []
  | r :: rs => r :: dropDupDate (rs.filter (fun s => s.date != r.date))
termination_by l => l.length
decreasing_by
  simp only [List.length_cons]
  exact Nat.lt_succ_of_le (List.length_filter_le _ _)

/-- The merge in `update_symbol_data` (fetch_vol_delivery_data.py lines
199-203): `pd.concat([existing_data, new_data]).drop_duplicates(subset=
["Date"]).sort_values(by="Date")`. Existing rows come first in the
concatenation, so `keep="first"` keeps the existing row on a date
conflict. After deduplication all dates are distinct, so the (unstable)
pandas sort is fully determined by the keys and insertion sort models it
exactly. -/
def mergeData (existing newData : List DailyRecord) : List DailyRecord :=
  List.insertionSort dateLE (dropDupDate (existing ++ newData))

/-- Result of a Python expression or call: a normal value, or a raised
exception carrying its message. -/
inductive PyResult (α : Type) where
  | ok (val : α)
  | exn (msg : String)
deriving DecidableEq, Repr

/-- The outcome dictionary built by `BulkNSEDownloader._update_single_symbol`:
keys `"updated"`, `"new_records"`, `"error"` (`error = none` embeds Python
`None`). -/
structure ResultDict where
  updated : Bool
  newRecords : Nat
  error : Option String
deriving DecidableEq, Repr

/-- Python signature `def update_symbol_data(self, symbol)`
(fetch_vol_delivery_data.py line 168): 2 parameters including `self`. -/
def updateSymbolDataParamCount : Nat := 2

/-- The call site `self.downloader.update_symbol_data(symbol, start, end)`
(bulk_downloader.py lines 128-132) passes 4 positional arguments including
the bound `self`. -/
def updateSymbolDataCallArgCount : Nat := 4

/-- Message of the TypeError Python raises for the arity mismatch above. -/
def typeErrorMsg : String :=
  "TypeError: update_symbol_data() takes 2 positional arguments but 4 were given"

/-- Message of the ValueError pandas raises when a DataFrame is used in a
boolean context, as in `len(data) if data else 0` (bulk_downloader.py
line 109, where `data` is the DataFrame returned by
`download_symbol_data`). -/
def valueErrorMsg : String :=
  "ValueError: The truth value of a DataFrame is ambiguous. Use a.empty, a.bool(), a.item(), a.any() or a.all()."

/-- Message of the AttributeError raised by
`self.downloader.get_symbol_directory(symbol)` (bulk_downloader.py
line 141): class `NSEDataDownloader` defines no method of that name (its
path helper is `get_csv_file_path`). -/
def attrErrorMsg : String :=
  "AttributeError: NSEDataDownloader object has no attribute get_symbol_directory"

/-- Dynamic semantics of the call at bulk_downloader.py line 128: Python
checks the argument count against the callee signature before running the
body; a mismatch raises TypeError. `bodyRes` is what the body would return
were the call valid. -/
def callUpdateSymbolData (bodyRes : PyResult (List DailyRecord)) :
    PyResult (List DailyRecord) :=
  if updateSymbolDataCallArgCount = updateSymbolDataParamCount then bodyRes
  else .exn typeErrorMsg

/-- `BulkNSEDownloader._update_single_symbol` (bulk_downloader.py lines
92-135). Dates are day serials (`Int`). The collaborator results are
injected: `latestRes` is what `self._get_latest_date_in_csv(symbol)`
produces, `downloadRes` what `download_symbol_data(symbol)` produces in the
no-cache branch, and `bodyRes` what the body of `update_symbol_data` would
produce in the stale branch (preempted by the arity TypeError, see
`callUpdateSymbolData`). The entire body runs inside `try/except
Exception`, whose handler returns the error dictionary. The stale-fetch
branch ends without a `return` statement, so Python returns `None`,
embedded as `none`. -/
def updateSingleSymbol (latestRes : PyResult (Option Int))
    (downloadRes : PyResult (List DailyRecord))
    (bodyRes : PyResult (List DailyRecord)) (today : Int) :
    Option ResultDict :=
  match latestRes with
  | .exn e => some ⟨false, 0, some e⟩
  | .ok none =>
    match downloadRes with
    | .exn e => some ⟨false, 0, some e⟩
    | .ok _ => some ⟨false, 0, some valueErrorMsg⟩
  | .ok (some latest) =>
    if today - 1 ≤ latest then some ⟨false, 0, none⟩
    else if today - 1 < latest + 1 then some ⟨false, 0, none⟩
    else
      match callUpdateSymbolData bodyRes with
      | .exn e => some ⟨false, 0, some e⟩
      | .ok _ => none

/-- Truthiness of `result["error"]` (bulk_downloader.py line 73): Python
`None` and the empty string are falsy, any other string is truthy. -/
def pyTruthyStr : Option String → Bool
  | none => false
  | some s => !(s == "")

/-- The three symbol lists collected by `update_all_symbols`:
`updated_symbols`, `failed_symbols`, `no_update_needed`. -/
structure Report where
  updated : List String
  failed : List String
  noUpdate : List String
deriving DecidableEq, Repr

/-- Loop body of `update_all_symbols` (bulk_downloader.py lines 63-87) for
one completed future. `res` is the future's result: `.exn` if
`future.result()` re-raises, `.ok none` if the task returned Python `None`
(then `result["updated"]` raises TypeError, caught by the `except` at line
82), `.ok (some d)` for a proper outcome dictionary. Each arm appends the
symbol to exactly one of the three lists. -/
def processOutcome (acc : Report) (s : String)
    (res : PyResult (Option ResultDict)) : Report :=
  match res with
  | .exn _ => { acc with failed := acc.failed ++ [s] }
  | .ok none => { acc with failed := acc.failed ++ [s] }
  | .ok (some d) =>
    if d.updated then { acc with updated := acc.updated ++ [s] }
    else if pyTruthyStr d.error then { acc with failed := acc.failed ++ [s] }
    else { acc with noUpdate := acc.noUpdate ++ [s] }

/-- `update_all_symbols` (bulk_downloader.py lines 43-90). `env` maps each
symbol to its future's result. `as_completed` yields futures in completion
order, an arbitrary permutation of the submission order; the properties
proved below are permutation-invariant, and we process in list order. -/
def updateAllSymbols (env : String → PyResult (Option ResultDict))
    (symbols : List String) : Report :=
  symbols.foldl (fun acc s => processOutcome acc s (env s)) ⟨[], [], []⟩

/-- All symbols appearing in a report, bucket by bucket. -/
def reportList (r : Report) : List String :=
  r.updated ++ r.failed ++ r.noUpdate

/-- A concrete batch environment used in witnesses: symbol "XERR" fails
with the message of utils.py line 112, "YUP" updates with 4 new records,
anything else is already up to date. -/
def envEx : String → PyResult (Option ResultDict) := fun s =>
  if s = "XERR" then
    .ok (some ⟨false, 0, some "RuntimeError: Resource not available"⟩)
  else if s = "YUP" then .ok (some ⟨true, 4, none⟩)
  else .ok (some ⟨false, 0, none⟩)

/-- One CSV file as seen by `_get_latest_date_in_csv`: either reading or
date-parsing it raises (any exception), or it yields a table with column
names and the parsed dates of its timestamp column. -/
inductive CsvRead where
  | unreadable (msg : String)
  | table (cols : List String) (dates : List Int)
deriving DecidableEq, Repr

/-- Whether the attribute `get_symbol_directory` exists on
`NSEDataDownloader`: it does not (the class defines `__init__`,
`make_request`, `download_symbol_data`, `is_data_complete`,
`get_listing_date`, `get_csv_file_path`, `save_to_csv`, `read_csv`,
`load_from_csv`, `update_symbol_data` only). -/
def hasAttrGetSymbolDirectory : Bool := false

/-- The per-file loop of `_get_latest_date_in_csv` (bulk_downloader.py
lines 147-162) as written: each file is read inside `try/except`; an
unreadable file is logged and skipped; a readable non-empty table
contributes its maximum date only when it has an `mTIMESTAMP` column. -/
def latestDateLoop (files : List CsvRead) : Option Int :=
  files.foldl
    (fun latest f =>
      match f with
      | .unreadable _ => latest
      | .table cols dates =>
        if dates ≠ [] ∧ "mTIMESTAMP" ∈ cols then
          match dates.max? with
          | none => latest
          | some m =>
            match latest with
            | none => some m
            | some cur => if m > cur then some m else some cur
        else latest)
    none

/-- `BulkNSEDownloader._get_latest_date_in_csv` (bulk_downloader.py lines
137-162). Its first statement calls `self.downloader.get_symbol_directory
(symbol)`; that attribute does not exist, so AttributeError is raised
before any file is touched. The remaining statements (the empty-file-list
early return and the per-file loop) are embedded as they are written,
guarded by the attribute existing. -/
def getLatestDateInCsv (files : List CsvRead) : PyResult (Option Int) :=
  if hasAttrGetSymbolDirectory then
    if files = [] then .ok none else .ok (latestDateLoop files)
  else .exn attrErrorMsg

/-- The on-disk cache: symbol name to CSV content, one file per symbol
(`get_csv_file_path` maps a symbol to `base_dir / symbol.csv`). -/
abbrev Store := List (String × List DailyRecord)

/-- Overwrite (or create) the file of one symbol, other files untouched. -/
def setStore (store : Store) (symbol : String) (data : List DailyRecord) :
    Store :=
  match store with
  | [] => [(symbol, data)]
  | (s, d) :: rest =>
    if s = symbol then (symbol, data) :: rest
    else (s, d) :: setStore rest symbol data

/-- Look up one symbol's file. -/
def getStore (store : Store) (symbol : String) : Option (List DailyRecord) :=
  match store with
  | [] => none
  | (s, d) :: rest => if s = symbol then some d else getStore rest symbol

/-- `NSEDataDownloader.save_to_csv` (fetch_vol_delivery_data.py lines
132-147): `if data.empty: return False` fires before the path is even
computed; only non-empty data reaches `data.to_csv(csv_path)`, a full
overwrite of the symbol's file. (The `except` arm around the write, which
returns False on an OS error, is not modelled: writes here succeed.) -/
def saveToCsv (store : Store) (symbol : String) (data : List DailyRecord) :
    Bool × Store :=
  if data = [] then (false, store)
  else (true, setStore store symbol data)

/-- Day serial (days since 1970-01-01) of `datetime(2000, 1, 1)`, the
fallback start date of `download_symbol_data` (fetch_vol_delivery_data.py
line 66). -/
def fallbackEpochSerial : Int := 10957

/-- The fetch range computed by `download_symbol_data(symbol)` when called
with `start_year=None, end_year=None` — the call made by
`_update_single_symbol` when no cached data exists (bulk_downloader.py
line 106): start is the listing date when the metadata request yields one,
else `datetime(2000, 1, 1)`; end is `datetime.now()` — today, not
yesterday (fetch_vol_delivery_data.py lines 59-78). -/
def downloadRange (listingDate : Option Int) (today : Int) : Int × Int :=
  ((match listingDate with
    | some d => d
    | none => fallbackEpochSerial), today)

/-- A Python `datetime` date, calendar components only. -/
structure PyDate where
  year : Nat
  month : Nat
  day : Nat
deriving DecidableEq, Repr

/-- Gregorian leap-year rule. -/
def isLeapYear (y : Nat) : Bool :=
  (y % 4 == 0 && y % 100 != 0) || y % 400 == 0

/-- Days in a month of a given year. -/
def daysInMonth (y m : Nat) : Nat :=
  if m = 2 then (if isLeapYear y then 29 else 28)
  else if m = 4 ∨ m = 6 ∨ m = 9 ∨ m = 11 then 30
  else 31

/-- `d + timedelta(days=1)` on calendar components. -/
def nextDay (d : PyDate) : PyDate :=
  if d.day < daysInMonth d.year d.month then ⟨d.year, d.month, d.day + 1⟩
  else if d.month < 12 then ⟨d.year, d.month + 1, 1⟩
  else ⟨d.year + 1, 1, 1⟩

/-- Chronological order on calendar dates (year, then month, then day). -/
def pyDateLE (a b : PyDate) : Prop :=
  a.year < b.year ∨
    (a.year = b.year ∧
      (a.month < b.month ∨ (a.month = b.month ∧ a.day ≤ b.day)))

instance (a b : PyDate) : Decidable (pyDateLE a b) := by
  unfold pyDateLE; infer_instance

/-- The start date computed by `NSEDataDownloader.update_symbol_data`
(fetch_vol_delivery_data.py lines 172-186): `datetime(current_year, 1, 1)`
when no cache exists or the cached latest date lies in an earlier calendar
year, else the day after the cached latest date. -/
def updateStartDate (latest : Option PyDate) (currentYear : Nat) : PyDate :=
  match latest with
  | none => ⟨currentYear, 1, 1⟩
  | some d => if d.year < currentYear then ⟨currentYear, 1, 1⟩ else nextDay d

theorem mem_of_mem_dropDupDate (l : List DailyRecord) :
    ∀ r, r ∈ dropDupDate l → r ∈ l := by
  induction l using dropDupDate.induct with
  | case1 => intro r h; simp [dropDupDate] at h
  | case2 x xs ih =>
    intro r h
    rw [dropDupDate] at h
    rcases List.mem_cons.mp h with h1 | h2
    · exact h1 ▸ List.mem_cons_self _ _
    · exact List.mem_cons_of_mem _ (List.mem_of_mem_filter (ih r h2))

theorem nodupDates_dropDupDate (l : List DailyRecord) :
    (dropDupDate l).Pairwise (fun a b => a.date ≠ b.date) := by
  induction l using dropDupDate.induct with
  | case1 => simp [dropDupDate]
  | case2 x xs ih =>
    rw [dropDupDate]
    refine List.pairwise_cons.mpr ⟨?_, ih⟩
    intro y hy
    have hmem := mem_of_mem_dropDupDate _ y hy
    have hbne := List.of_mem_filter hmem
    exact fun e => (bne_iff_ne.mp hbne) (e ▸ rfl)

theorem find?_filter_ne (a d : Int) (h : d ≠ a) (rs : List DailyRecord) :
    (rs.filter (fun s => s.date != a)).find? (fun r => r.date == d)
      = rs.find? (fun r => r.date == d) := by
  induction rs with
  | nil => rfl
  | cons s ss ih =>
    by_cases hs : s.date = a
    · have h1 : (s.date != a) = false := by simp [hs]
      have h2 : (s.date == d) = false := by
        simp only [beq_eq_false_iff_ne, ne_eq]
        exact fun e => h (hs ▸ e).symm
      rw [List.filter_cons, if_neg (by simp [h1]), ih]
      simp only [List.find?_cons, h2]
    · have h1 : (s.date != a) = true := bne_iff_ne.mpr hs
      rw [List.filter_cons, if_pos (by simp [h1])]
      simp only [List.find?_cons]
      cases hpc : s.date == d with
      | true => rfl
      | false => exact ih

theorem filter_dropDupDate (d : Int) (l : List DailyRecord) :
    (dropDupDate l).filter (fun r => r.date == d)
      = (l.find? (fun r => r.date == d)).toList := by
  induction l using dropDupDate.induct with
  | case1 => simp [dropDupDate]
  | case2 x xs ih =>
    rw [dropDupDate, List.filter_cons]
    by_cases hx : x.date = d
    · have hcond : (x.date == d) = true := beq_iff_eq.mpr hx
      rw [if_pos (by simp [hcond])]
      have hrest : (dropDupDate (xs.filter (fun s => s.date != x.date))).filter
          (fun r => r.date == d) = [] := by
        apply List.filter_eq_nil_iff.mpr
        intro y hy
        have hmem := mem_of_mem_dropDupDate _ y hy
        have hbne := List.of_mem_filter hmem
        simp only [Bool.not_eq_true, beq_eq_false_iff_ne, ne_eq]
        exact fun e => (bne_iff_ne.mp hbne) (e.trans hx.symm)
      rw [hrest]
      simp only [List.find?_cons, hcond]
      rfl
    · have hcond : (x.date == d) = false := by
        simpa only [beq_eq_false_iff_ne, ne_eq] using hx
      rw [if_neg (by simp [hcond]), ih,
        find?_filter_ne x.date d (fun e => hx e.symm) xs]
      simp only [List.find?_cons, hcond]

theorem date_mem_dropDupDate (d : Int) (l : List DailyRecord) :
    (∃ r ∈ dropDupDate l, r.date = d) ↔ ∃ r ∈ l, r.date = d := by
  constructor
  · rintro ⟨r, hr, hd⟩
    exact ⟨r, mem_of_mem_dropDupDate _ r hr, hd⟩
  · rintro ⟨r, hr, hd⟩
    have hsome : (l.find? (fun r => r.date == d)).isSome :=
      List.find?_isSome.mpr ⟨r, hr, beq_iff_eq.mpr hd⟩
    obtain ⟨r', hr'⟩ := Option.isSome_iff_exists.mp hsome
    have h5 := filter_dropDupDate d l
    rw [hr'] at h5
    have hmem : r' ∈ (dropDupDate l).filter (fun r => r.date == d) := by
      rw [h5]; exact List.mem_cons_self _ _
    exact ⟨r', List.mem_of_mem_filter hmem,
      beq_iff_eq.mp (@List.of_mem_filter _ (fun r => r.date == d) r' _ hmem)⟩

theorem dropDupDate_append_absorb (M : List DailyRecord) :
    ∀ n : List DailyRecord, M.Pairwise (fun a b => a.date ≠ b.date) →
    (∀ r ∈ n, ∃ r' ∈ M, r'.date = r.date) →
    dropDupDate (M ++ n) = M := by
  induction M with
  | nil =>
    intro n _ hsub
    have hn : n = [] := by
      cases n with
      | nil => rfl
      | cons r rs =>
        obtain ⟨r', hr', _⟩ := hsub r (List.mem_cons_self r rs)
        exact absurd hr' (List.not_mem_nil r')
    simp [hn, dropDupDate]
  | cons x M' ih =>
    intro n hM hsub
    rw [List.cons_append, dropDupDate]
    congr 1
    rw [List.filter_append]
    have hM' : M'.filter (fun s => s.date != x.date) = M' := by
      apply List.filter_eq_self.mpr
      intro y hy
      exact bne_iff_ne.mpr fun e => ((List.pairwise_cons.mp hM).1 y hy) e.symm
    rw [hM']
    apply ih _ (List.pairwise_cons.mp hM).2
    intro r hrB
    have hr : r ∈ n := List.mem_of_mem_filter hrB
    have hne : r.date ≠ x.date :=
      bne_iff_ne.mp (@List.of_mem_filter _ (fun s => s.date != x.date) r n hrB)
    obtain ⟨r', hr', he⟩ := hsub r hr
    rcases List.mem_cons.mp hr' with rfl | hmem
    · exact absurd he.symm hne
    · exact ⟨r', hmem, he⟩

theorem sorted_mergeData (e n : List DailyRecord) :
    List.Sorted dateLE (mergeData e n) :=
  List.sorted_insertionSort dateLE _

theorem nodupDates_mergeData (e n : List DailyRecord) :
    (mergeData e n).Pairwise (fun a b => a.date ≠ b.date) :=
  (List.Perm.pairwise_iff (fun h => Ne.symm h)
    (List.perm_insertionSort dateLE (dropDupDate (e ++ n)))).mpr
    (nodupDates_dropDupDate _)

theorem mem_mergeData (e n : List DailyRecord) :
    ∀ r ∈ mergeData e n, r ∈ e ++ n := fun r hr =>
  mem_of_mem_dropDupDate _ r
    ((List.perm_insertionSort dateLE _).mem_iff.mp hr)

theorem date_mem_mergeData (e n : List DailyRecord) (d : Int) :
    (∃ r ∈ mergeData e n, r.date = d) ↔ ∃ r ∈ e ++ n, r.date = d := by
  have hperm := List.perm_insertionSort dateLE (dropDupDate (e ++ n))
  constructor
  · rintro ⟨r, hr, hd⟩
    exact (date_mem_dropDupDate d (e ++ n)).mp ⟨r, hperm.mem_iff.mp hr, hd⟩
  · intro h
    obtain ⟨r, hr, hd⟩ := (date_mem_dropDupDate d (e ++ n)).mpr h
    exact ⟨r, hperm.mem_iff.mpr hr, hd⟩

theorem filter_mergeData (e n : List DailyRecord) (d : Int) :
    (mergeData e n).filter (fun r => r.date == d)
      = ((e ++ n).find? (fun r => r.date == d)).toList := by
  have hperm :=
    (List.perm_insertionSort dateLE (dropDupDate (e ++ n))).filter
      (fun r => r.date == d)
  rw [filter_dropDupDate] at hperm
  cases hfind : (e ++ n).find? (fun r => r.date == d) with
  | none => rw [hfind] at hperm; exact List.perm_nil.mp hperm
  | some r0 => rw [hfind] at hperm; exact List.perm_singleton.mp hperm

/-- C1: the claim states that `merge_and_persist` deduplicates by trade
date keeping the NEWLY fetched value on a shared date. The code
concatenates `[existing_data, new_data]` in that order and calls
`drop_duplicates(subset=["Date"])` with pandas' default `keep="first"`, so
the EXISTING cached row wins. With cache dates {1, 2} and fetch dates
{2, 3} (same date 2, different values), the merged table's date-2 row
carries the old value [20], not the newly fetched [99]. -/
theorem mergeData_new_value_loses :
    mergeData [⟨1, [10]⟩, ⟨2, [20]⟩] [⟨2, [99]⟩, ⟨3, [30]⟩]
      = [⟨1, [10]⟩, ⟨2, [20]⟩, ⟨3, [30]⟩] ∧
    mergeData [⟨1, [10]⟩, ⟨2, [20]⟩] [⟨2, [99]⟩, ⟨3, [30]⟩]
      ≠ [⟨1, [10]⟩, ⟨2, [99]⟩, ⟨3, [30]⟩] := by
  constructor <;>
    simp [mergeData, dropDupDate, List.insertionSort, List.orderedInsert,
      dateLE]

/-- C1 (amended): `merge_and_persist` concatenates existing and new
records, deduplicates by trade date keeping the EXISTING cached value
whenever an existing record and a new record share a date, and sorts
ascending by date: the result is sorted, has pairwise-distinct dates,
contains only input rows, covers exactly the input dates, and on any date
present in the existing table the surviving row is the existing one. -/
theorem mergeData_keeps_existing (e n : List DailyRecord) (d : Int)
    (r0 : DailyRecord) (h : e.find? (fun r => r.date == d) = some r0) :
    List.Sorted dateLE (mergeData e n) ∧
    (mergeData e n).Pairwise (fun a b => a.date ≠ b.date) ∧
    (∀ r ∈ mergeData e n, r ∈ e ++ n) ∧
    (∀ d2 : Int,
      (∃ r ∈ mergeData e n, r.date = d2) ↔ ∃ r ∈ e ++ n, r.date = d2) ∧
    (mergeData e n).filter (fun r => r.date == d) = [r0] := by
  refine ⟨sorted_mergeData e n, nodupDates_mergeData e n, mem_mergeData e n,
    fun d2 => date_mem_mergeData e n d2, ?_⟩
  rw [filter_mergeData, List.find?_append, h]
  rfl

/-- Witness for `mergeData_keeps_existing`: at the concrete merge of cache
{1, 2} with fetch {2, 3}, the date-2 row of the result is the existing
record ⟨2, [20]⟩. -/
theorem mergeData_keeps_existing_w :
    List.find? (fun r => r.date == 2)
      [(⟨1, [10]⟩ : DailyRecord), ⟨2, [20]⟩] = some ⟨2, [20]⟩ ∧
    (mergeData [⟨1, [10]⟩, ⟨2, [20]⟩] [⟨2, [99]⟩, ⟨3, [30]⟩]).filter
      (fun r => r.date == 2) = [⟨2, [20]⟩] :=
  ⟨by decide,
   (mergeData_keeps_existing [⟨1, [10]⟩, ⟨2, [20]⟩] [⟨2, [99]⟩, ⟨3, [30]⟩]
     2 ⟨2, [20]⟩ (by decide)).2.2.2.2⟩

/-- C8: `merge_and_persist` is idempotent — merging the same fetch result
a second time into the already-merged table reproduces the merged table
exactly, for every existing table and every fetched sequence. -/
theorem mergeData_idempotent (e n : List DailyRecord) :
    mergeData (mergeData e n) n = mergeData e n := by
  have hnd := nodupDates_mergeData e n
  have hsub : ∀ r ∈ n, ∃ r' ∈ mergeData e n, r'.date = r.date := by
    intro r hr
    exact (date_mem_mergeData e n r.date).mpr
      ⟨r, List.mem_append.mpr (Or.inr hr), rfl⟩
  have habs := dropDupDate_append_absorb (mergeData e n) n hnd hsub
  show List.insertionSort dateLE (dropDupDate (mergeData e n ++ n))
      = mergeData e n
  rw [habs]
  exact (sorted_mergeData e n).insertionSort_eq

theorem append_singleton_first {α : Type} (u f n : List α) (s : α) :
    List.Perm ((u ++ [s]) ++ f ++ n) ((u ++ f ++ n) ++ [s]) := by
  have h1 : List.Perm ([s] ++ (f ++ n)) ((f ++ n) ++ [s]) :=
    List.perm_append_comm
  have h2 := List.Perm.append_left u h1
  have e1 : (u ++ [s]) ++ f ++ n = u ++ ([s] ++ (f ++ n)) := by
    simp [List.append_assoc]
  have e2 : u ++ ((f ++ n) ++ [s]) = (u ++ f ++ n) ++ [s] := by
    simp [List.append_assoc]
  rw [e1, ← e2]
  exact h2

theorem append_singleton_mid {α : Type} (u f n : List α) (s : α) :
    List.Perm (u ++ (f ++ [s]) ++ n) ((u ++ f ++ n) ++ [s]) := by
  have h1 : List.Perm ([s] ++ n) (n ++ [s]) := List.perm_append_comm
  have h2 := List.Perm.append_left (u ++ f) h1
  have e1 : u ++ (f ++ [s]) ++ n = u ++ f ++ ([s] ++ n) := by
    simp [List.append_assoc]
  have e2 : u ++ f ++ (n ++ [s]) = (u ++ f ++ n) ++ [s] := by
    simp [List.append_assoc]
  rw [e1, ← e2]
  exact h2

theorem reportList_processOutcome (acc : Report) (s : String)
    (res : PyResult (Option ResultDict)) :
    List.Perm (reportList (processOutcome acc s res))
      (reportList acc ++ [s]) := by
  unfold processOutcome reportList
  cases res with
  | exn m => exact append_singleton_mid _ _ _ _
  | ok o =>
    cases o with
    | none => exact append_singleton_mid _ _ _ _
    | some d =>
      by_cases hu : d.updated = true
      · simpa [hu] using append_singleton_first acc.updated acc.failed
          acc.noUpdate s
      · by_cases he : pyTruthyStr d.error = true
        · simpa [hu, he] using append_singleton_mid acc.updated acc.failed
            acc.noUpdate s
        · simp only [hu, he, if_neg, Bool.false_eq_true, not_false_iff]
          simp [List.append_assoc]

theorem reportList_foldl (env : String → PyResult (Option ResultDict))
    (symbols : List String) : ∀ acc : Report,
    List.Perm
      (reportList
        (symbols.foldl (fun a s => processOutcome a s (env s)) acc))
      (reportList acc ++ symbols) := by
  induction symbols with
  | nil => intro acc; simp
  | cons s ss ih =>
    intro acc
    rw [List.foldl_cons]
    refine (ih _).trans ?_
    have hstep := (reportList_processOutcome acc s (env s)).append_right ss
    refine hstep.trans ?_
    simp [List.append_assoc]

theorem mem_failed_foldl_mono (env : String → PyResult (Option ResultDict))
    (symbols : List String) : ∀ (acc : Report) (t : String),
    t ∈ acc.failed →
    t ∈ (symbols.foldl (fun a s => processOutcome a s (env s)) acc).failed := by
  induction symbols with
  | nil => intro acc t h; simpa using h
  | cons s ss ih =>
    intro acc t h
    rw [List.foldl_cons]
    apply ih
    unfold processOutcome
    cases env s with
    | exn m => exact List.mem_append.mpr (Or.inl h)
    | ok o =>
      cases o with
      | none => exact List.mem_append.mpr (Or.inl h)
      | some d =>
        by_cases hu : d.updated = true
        · simpa [hu] using h
        · by_cases he : pyTruthyStr d.error = true
          · simp only [hu, he, Bool.false_eq_true, if_neg, not_false_iff,
              if_pos]
            exact List.mem_append.mpr (Or.inl h)
          · simpa [hu, he] using h

theorem mem_failed_of_error_outcome
    (env : String → PyResult (Option ResultDict)) (s msg : String)
    (hmsg : ¬(msg = "")) (henv : env s = .ok (some ⟨false, 0, some msg⟩)) :
    ∀ symbols : List String, s ∈ symbols → ∀ acc : Report,
    s ∈ (symbols.foldl (fun a s => processOutcome a s (env s)) acc).failed := by
  intro symbols
  induction symbols with
  | nil => intro hs; cases hs
  | cons x ss ih =>
    intro hs acc
    rw [List.foldl_cons]
    rcases List.mem_cons.mp hs with rfl | hmem
    · apply mem_failed_foldl_mono
      rw [henv]
      unfold processOutcome pyTruthyStr
      simp [hmsg]
    · exact ih hmem _

/-- C4: the claim says a symbol whose cached latest date is yesterday or
today yields `{updated: False}` with no error and no fetch. Evaluating the
code at such a symbol — a cache whose single file carries latest date
19729 (2024-01-07), today 19730 (2024-01-08) — the lookup
`_get_latest_date_in_csv` raises AttributeError at the nonexistent
`get_symbol_directory` before the up-to-date branch (lines 113-115) can
run; the `except` converts it into `{updated: False, error:
AttributeError...}`, not the claimed error-free outcome, and
`update_all_symbols` then reports the symbol as failed, not as already up
to date. -/
theorem updateSingle_fresh_cache_fails :
    updateSingleSymbol
        (getLatestDateInCsv [.table ["mTIMESTAMP"] [19729]])
        (.ok []) (.ok []) 19730
      = some ⟨false, 0, some attrErrorMsg⟩ ∧
    updateSingleSymbol
        (getLatestDateInCsv [.table ["mTIMESTAMP"] [19729]])
        (.ok []) (.ok []) 19730
      ≠ some ⟨false, 0, none⟩ ∧
    (processOutcome ⟨[], [], []⟩ "ABC"
        (.ok (updateSingleSymbol
          (getLatestDateInCsv [.table ["mTIMESTAMP"] [19729]])
          (.ok []) (.ok []) 19730))).failed = ["ABC"] := by
  refine ⟨rfl, ?_, rfl⟩
  decide

/-- C2: in the claimed scenario — cache holding 2024-01-01..2024-01-05
(latest serial 19727), today 2024-01-08 (serial 19730), fetch able to
return the one record of 2024-01-06 (serial 19728) — the claim expects
`{updated: True, new_record_count: 1}`. The code instead calls
`update_symbol_data(symbol, start, end)` whose signature takes only
`symbol`; the resulting TypeError is caught by the surrounding `except`
and the outcome is `{updated: False, error: TypeError...}`, so the symbol
is reported as failed (and even were the arity right, the branch ends
without a return statement, making the task yield None). -/
theorem updateSingle_stale_scenario :
    updateSingleSymbol (.ok (some 19727)) (.ok [])
        (.ok [⟨19728, [1]⟩]) 19730
      = some ⟨false, 0, some typeErrorMsg⟩ ∧
    updateSingleSymbol (.ok (some 19727)) (.ok [])
        (.ok [⟨19728, [1]⟩]) 19730
      ≠ some ⟨true, 1, none⟩ := by
  constructor
  · rfl
  · decide

/-- C3: a per-symbol exception — here a transient fetch failure raised
inside the no-cache download branch — is caught by the `try/except` of
`_update_single_symbol` and converted into the error outcome carrying the
message; in `update_all_symbols` a symbol with such an outcome lands in
the failed list, and every sibling symbol of the batch is still processed
and appears in the report. -/
theorem per_symbol_error_isolation
    (env : String → PyResult (Option ResultDict)) (symbols : List String)
    (s msg : String) (hs : s ∈ symbols) (hmsg : ¬(msg = ""))
    (henv : env s = .ok (some ⟨false, 0, some msg⟩)) :
    (∀ (b : PyResult (List DailyRecord)) (today : Int),
      updateSingleSymbol (.ok none) (.exn msg) b today
        = some ⟨false, 0, some msg⟩) ∧
    s ∈ (updateAllSymbols env symbols).failed ∧
    (∀ t ∈ symbols,
      t ∈ (updateAllSymbols env symbols).updated ∨
      t ∈ (updateAllSymbols env symbols).failed ∨
      t ∈ (updateAllSymbols env symbols).noUpdate) := by
  refine ⟨fun b today => rfl, ?_, ?_⟩
  · exact mem_failed_of_error_outcome env s msg hmsg henv symbols hs _
  · intro t ht
    have hperm := reportList_foldl env symbols ⟨[], [], []⟩
    have hmem : t ∈ reportList (updateAllSymbols env symbols) := by
      apply hperm.mem_iff.mpr
      simpa [reportList] using ht
    unfold reportList at hmem
    rcases List.mem_append.mp hmem with h1 | h2
    · rcases List.mem_append.mp h1 with hu | hf
      · exact Or.inl hu
      · exact Or.inr (Or.inl hf)
    · exact Or.inr (Or.inr h2)

/-- Witness for `per_symbol_error_isolation` on the concrete batch
["YUP", "XERR", "ZOK"] under `envEx`, where "XERR" fails with a
RuntimeError message. -/
theorem per_symbol_error_isolation_w :
    "XERR" ∈ (updateAllSymbols envEx ["YUP", "XERR", "ZOK"]).failed ∧
    ("YUP" ∈ (updateAllSymbols envEx ["YUP", "XERR", "ZOK"]).updated ∨
     "YUP" ∈ (updateAllSymbols envEx ["YUP", "XERR", "ZOK"]).failed ∨
     "YUP" ∈ (updateAllSymbols envEx ["YUP", "XERR", "ZOK"]).noUpdate) :=
  have h := per_symbol_error_isolation envEx ["YUP", "XERR", "ZOK"]
    "XERR" "RuntimeError: Resource not available" (by decide) (by decide)
    (by rfl)
  ⟨h.2.1, h.2.2 "YUP" (by decide)⟩

/-- C7: for a batch over distinct symbols, the report is a partition: the
three lists together are a permutation of the input (so every symbol
appears in exactly one bucket), the buckets are pairwise disjoint, and
every input symbol is in one of them, for every assignment of per-symbol
outcomes. -/
theorem updateAll_partition
    (env : String → PyResult (Option ResultDict)) (symbols : List String)
    (hnd : symbols.Nodup) :
    List.Perm (reportList (updateAllSymbols env symbols)) symbols ∧
    List.Disjoint (updateAllSymbols env symbols).updated
      (updateAllSymbols env symbols).failed ∧
    List.Disjoint (updateAllSymbols env symbols).updated
      (updateAllSymbols env symbols).noUpdate ∧
    List.Disjoint (updateAllSymbols env symbols).failed
      (updateAllSymbols env symbols).noUpdate ∧
    (∀ s ∈ symbols,
      s ∈ (updateAllSymbols env symbols).updated ∨
      s ∈ (updateAllSymbols env symbols).failed ∨
      s ∈ (updateAllSymbols env symbols).noUpdate) := by
  have hperm : List.Perm (reportList (updateAllSymbols env symbols))
      symbols := by
    have h := reportList_foldl env symbols ⟨[], [], []⟩
    simpa [reportList] using h
  have hnodup : (reportList (updateAllSymbols env symbols)).Nodup :=
    hperm.nodup_iff.mpr hnd
  unfold reportList at hnodup
  have h1 := List.nodup_append.mp hnodup
  have h2 := List.nodup_append.mp h1.1
  have hdisj := h1.2.2
  rcases List.disjoint_append_left.mp hdisj with ⟨hun, hfn⟩
  refine ⟨hperm, h2.2.2, hun, hfn, ?_⟩
  intro s hsym
  have hmem : s ∈ reportList (updateAllSymbols env symbols) :=
    hperm.mem_iff.mpr hsym
  unfold reportList at hmem
  rcases List.mem_append.mp hmem with ha | hn
  · rcases List.mem_append.mp ha with hu | hf
    · exact Or.inl hu
    · exact Or.inr (Or.inl hf)
  · exact Or.inr (Or.inr hn)

/-- Witness for `updateAll_partition` on the concrete distinct batch
["YUP", "XERR", "ZOK"] under `envEx`. -/
theorem updateAll_partition_w :
    List.Perm (reportList (updateAllSymbols envEx ["YUP", "XERR", "ZOK"]))
      ["YUP", "XERR", "ZOK"] ∧
    List.Disjoint (updateAllSymbols envEx ["YUP", "XERR", "ZOK"]).updated
      (updateAllSymbols envEx ["YUP", "XERR", "ZOK"]).failed ∧
    List.Disjoint (updateAllSymbols envEx ["YUP", "XERR", "ZOK"]).updated
      (updateAllSymbols envEx ["YUP", "XERR", "ZOK"]).noUpdate ∧
    List.Disjoint (updateAllSymbols envEx ["YUP", "XERR", "ZOK"]).failed
      (updateAllSymbols envEx ["YUP", "XERR", "ZOK"]).noUpdate ∧
    (∀ s ∈ ["YUP", "XERR", "ZOK"],
      s ∈ (updateAllSymbols envEx ["YUP", "XERR", "ZOK"]).updated ∨
      s ∈ (updateAllSymbols envEx ["YUP", "XERR", "ZOK"]).failed ∨
      s ∈ (updateAllSymbols envEx ["YUP", "XERR", "ZOK"]).noUpdate) :=
  updateAll_partition envEx ["YUP", "XERR", "ZOK"] (by decide)

/-- C5 counterexample: with no cached data and no listing date available,
today = 19730 (2024-01-08), the computed download range ends at today
(19730), not at yesterday (19729) as the claim states. -/
theorem downloadRange_ends_today :
    downloadRange none 19730 = (fallbackEpochSerial, 19730) ∧
    downloadRange none 19730 ≠ (fallbackEpochSerial, 19730 - 1) := by
  constructor
  · rfl
  · decide

/-- C5 (amended): for a symbol with no cached data, `_update_single_symbol`
calls `download_symbol_data(symbol)`, whose fetch range starts at the
symbol's listing date when the metadata request yields one — the fallback
epoch 2000-01-01 only otherwise — and ends at today (`datetime.now()`),
one day later than the claimed yesterday. -/
theorem downloadRange_spec (listing : Option Int) (today : Int) :
    (downloadRange listing today).2 = today ∧
    today - 1 < (downloadRange listing today).2 ∧
    (listing = none →
      (downloadRange listing today).1 = fallbackEpochSerial) ∧
    (∀ d : Int, listing = some d → (downloadRange listing today).1 = d) := by
  refine ⟨rfl, ?_, ?_, ?_⟩
  · show today - 1 < today
    omega
  · intro h
    subst h
    rfl
  · intro d h
    subst h
    rfl

/-- Witness for `downloadRange_spec` at listing = none, today = 19730. -/
theorem downloadRange_spec_w :
    (downloadRange none 19730).1 = fallbackEpochSerial ∧
    (downloadRange none 19730).2 = 19730 :=
  ⟨(downloadRange_spec none 19730).2.2.1 rfl,
   (downloadRange_spec none 19730).1⟩

/-- C6: the claim says the latest-date lookup never raises on a malformed
cache file and instead skips it. Evaluating `_get_latest_date_in_csv` at a
cache containing one unreadable file: it raises AttributeError — its first
statement calls the nonexistent `get_symbol_directory` — so the exception
reaches the caller for every cache state, malformed or not. The per-file
loop as written (`latestDateLoop`) does implement the claimed
skip-and-take-max behavior, but it is unreachable. -/
theorem getLatestDate_raises :
    getLatestDateInCsv [.unreadable "ParserError: bad CSV"]
      = .exn attrErrorMsg ∧
    (∀ o : Option Int,
      getLatestDateInCsv [.unreadable "ParserError: bad CSV"] ≠ .ok o) ∧
    latestDateLoop
        [.unreadable "ParserError: bad CSV",
         .table ["mTIMESTAMP"] [19723, 19724]]
      = some 19724 := by
  refine ⟨rfl, ?_, by decide⟩
  intro o h
  exact PyResult.noConfusion h

/-- C9: `save_to_csv` called with an empty record set returns False before
any write, leaving the whole store — in particular the symbol's existing
table — unchanged; only a non-empty record set returns True and overwrites
that symbol's table. -/
theorem saveToCsv_empty_noop (store : Store) (symbol : String) :
    saveToCsv store symbol [] = (false, store) ∧
    (∀ data : List DailyRecord, data ≠ [] →
      saveToCsv store symbol data = (true, setStore store symbol data)) := by
  constructor
  · rfl
  · intro data hd
    simp [saveToCsv, hd]

/-- Witness for `saveToCsv_empty_noop` on a store holding one table. -/
theorem saveToCsv_empty_noop_w :
    saveToCsv [("ABC", [⟨1, [5]⟩])] "ABC" []
      = (false, [("ABC", [⟨1, [5]⟩])]) ∧
    saveToCsv [("ABC", [⟨1, [5]⟩])] "ABC" [⟨2, [7]⟩]
      = (true, setStore [("ABC", [⟨1, [5]⟩])] "ABC" [⟨2, [7]⟩]) :=
  ⟨(saveToCsv_empty_noop [("ABC", [⟨1, [5]⟩])] "ABC").1,
   (saveToCsv_empty_noop [("ABC", [⟨1, [5]⟩])] "ABC").2 [⟨2, [7]⟩]
     (by decide)⟩

/-- C10: whenever the cached latest date lies in a calendar year strictly
before the current year — or no cache exists — `update_symbol_data` starts
its fetch range at January 1 of the current year, not at the day after the
cached latest date; consequently no date of an earlier year lies at or
after the range start, so gaps from earlier years are never backfilled. -/
theorem updateStart_currentYearJan1 (latest : Option PyDate) (cy : Nat)
    (h : latest = none ∨ ∃ d, latest = some d ∧ d.year < cy) :
    updateStartDate latest cy = ⟨cy, 1, 1⟩ ∧
    ∀ g : PyDate, g.year < cy →
      ¬ pyDateLE (updateStartDate latest cy) g := by
  have heq : updateStartDate latest cy = ⟨cy, 1, 1⟩ := by
    rcases h with rfl | ⟨d, rfl, hy⟩
    · rfl
    · simp [updateStartDate, hy]
  refine ⟨heq, ?_⟩
  intro g hg hle
  rw [heq] at hle
  have hy : (⟨cy, 1, 1⟩ : PyDate).year = cy := rfl
  rcases hle with h1 | ⟨h2, _⟩
  · rw [hy] at h1; omega
  · rw [hy] at h2; omega

/-- Witness for `updateStart_currentYearJan1`: cached latest 2023-05-10,
current year 2024; the start is 2024-01-01 and the earlier-year date
2023-12-31 is outside the range. -/
theorem updateStart_currentYearJan1_w :
    updateStartDate (some ⟨2023, 5, 10⟩) 2024 = ⟨2024, 1, 1⟩ ∧
    ¬ pyDateLE (updateStartDate (some ⟨2023, 5, 10⟩) 2024) ⟨2023, 12, 31⟩ :=
  have h := updateStart_currentYearJan1 (some ⟨2023, 5, 10⟩) 2024
    (Or.inr ⟨⟨2023, 5, 10⟩, rfl, by decide⟩)
  ⟨h.1, h.2 ⟨2023, 12, 31⟩ (by decide)⟩

end StockCache
